import Mathlib

/-
  Shallow embedding of the smtpd SMTP server (src/smtpd.go, src/smtpd/envelope.go).
  Go strings are modelled as `List Char`; machine I/O (sockets, deadlines) is
  abstracted into explicit input lists; caller hooks become function parameters;
  Go panics become an explicit `panicked` outcome.
-/

namespace Smtpd

/-- Helper turning a Lean string literal into the character-list representation
used throughout the embedding. -/
def str (s : String) : List Char := s.toList

/-- Model of Go error values as seen by the session code: either an `SMTPError`
(src/smtpd.go line 513, a string meant to be written verbatim as the reply) or
any other non-nil error (whose message the session never inspects). -/
inductive GoError where
  | smtp (s : List Char)
  | other
deriving DecidableEq

/-- Embedding of `strings.Index(e, needle)` for a single-character needle,
returning the index of the first occurrence (the source only searches for
single characters and single short substrings; `none` models Go result -1). -/
def stringsIndexChar (c : Char) : List Char → Option Nat
  | [] => none
  | x :: t => if x = c then some 0 else (stringsIndexChar c t).map (fun n => n + 1)

/-- Embedding of `strings.ToLower` restricted to ASCII (all inputs exercised by
the claims are ASCII; Go applies the full Unicode mapping). -/
def stringsToLower (l : List Char) : List Char := l.map Char.toLower

/-- Embedding of `strings.ToUpper` restricted to ASCII. -/
def stringsToUpper (l : List Char) : List Char := l.map Char.toUpper

/-- Embedding of `unicode.IsSpace` on the Latin-1 range: space, tab, newline,
vertical tab, form feed, carriage return, NEL and NBSP. (Higher Unicode
white-space code points are not modelled; no claim exercises them.) -/
def unicodeIsSpace (c : Char) : Bool :=
  c = ' ' || c = '\t' || c = '\n' || c = Char.ofNat 11 || c = Char.ofNat 12 ||
  c = '\r' || c = Char.ofNat 0x85 || c = Char.ofNat 0xA0

/-- Embedding of `strings.TrimRightFunc`: drop the longest suffix of characters
satisfying `f`. -/
def trimRightFunc (f : Char → Bool) (l : List Char) : List Char :=
  (l.reverse.dropWhile f).reverse

/-! ## MailAddress (src/smtpd/envelope.go lines 9-21) -/

/-- `type MailAddress string` (envelope.go line 9). -/
abbrev MailAddress := List Char

/-- `func (a MailAddress) Email() string` (envelope.go lines 11-13). -/
def MailAddress.Email (a : MailAddress) : List Char := a

/-- `func (a MailAddress) Hostname() string` (envelope.go lines 15-21):
take the index of the first `@` via `strings.Index`; if present, lower-case
the substring after it; otherwise return the empty string. -/
def MailAddress.Hostname (a : MailAddress) : List Char :=
  match stringsIndexChar '@' a with
  | some idx => stringsToLower (a.drop (idx + 1))
  | none => []

/-! ## Command line parsing (src/smtpd.go lines 471-506) -/

/-- `type cmdLine string` (src/smtpd.go line 471). -/
abbrev cmdLine := List Char

/-- `func (cl cmdLine) Verb() string` (src/smtpd.go lines 488-494): the
upper-cased text before the first space, or the whole line minus the final two
characters when there is no space. (Go would panic on a spaceless line shorter
than two bytes; `checkValid` runs first and excludes that case, and the model
uses truncating subtraction there.) -/
def cmdLine.Verb (cl : cmdLine) : List Char :=
  match stringsIndexChar ' ' cl with
  | some idx => stringsToUpper (cl.take idx)
  | none => stringsToUpper (cl.take (cl.length - 2))

/-- `func (cl cmdLine) Arg() string` (src/smtpd.go lines 496-502): the text
after the first space with the trailing CRLF removed and trailing white space
trimmed; empty when there is no space.
`s[idx+1 : len(s)-2]` is rendered as take-then-drop. -/
def cmdLine.Arg (cl : cmdLine) : List Char :=
  match stringsIndexChar ' ' cl with
  | some idx => trimRightFunc unicodeIsSpace ((cl.take (cl.length - 2)).drop (idx + 1))
  | none => []

/-- The Go error text written by `checkValid` when a line lacks the CRLF
terminator (src/smtpd.go line 475); the apostrophe is built explicitly. -/
def lineTermErrMsg : List Char :=
  str "line doesn" ++ [Char.ofNat 39] ++ str "t end in \\r\\n"

/-- `func (cl cmdLine) checkValid() error` (src/smtpd.go lines 473-486):
`some msg` models a non-nil error carrying message `msg`. -/
def cmdLine.checkValid (cl : cmdLine) : Option (List Char) :=
  if ¬ (str "\r\n").isSuffixOf cl then some lineTermErrMsg
  else if cl.Verb = str "RSET" ∨ cl.Verb = str "DATA" ∨ cl.Verb = str "QUIT" then
    if cl.Arg ≠ [] then some (str "unexpected argument") else none
  else none

/-! ## The two address regexps (src/smtpd.go lines 19-23)

`mailFromRE = [Ff][Rr][Oo][Mm]:<(.*)>` and `rcptToRE = [Tt][Oo]:<(.+)>` are
used through `FindStringSubmatch`, i.e. Perl-style leftmost-first matching:
scan start positions left to right; at a start position the literal tag must
match, after which the greedy `.*`/`.+` (where `.` excludes the newline)
captures up to the last `>` available in the newline-free region, `.+`
additionally requiring a non-empty capture. -/

/-- Does the list start with the six characters matched by
`[Ff][Rr][Oo][Mm]:<`? -/
def fromTagAt : List Char → Bool
  | c1 :: c2 :: c3 :: c4 :: c5 :: c6 :: _ =>
    (c1 = 'F' || c1 = 'f') && (c2 = 'R' || c2 = 'r') && (c3 = 'O' || c3 = 'o') &&
    (c4 = 'M' || c4 = 'm') && c5 = ':' && c6 = '<'
  | _ => false

/-- Does the list start with the four characters matched by `[Tt][Oo]:<`? -/
def toTagAt : List Char → Bool
  | c1 :: c2 :: c3 :: c4 :: _ =>
    (c1 = 'T' || c1 = 't') && (c2 = 'O' || c2 = 'o') && c3 = ':' && c4 = '<'
  | _ => false

/-- Index of the last occurrence of `c`, or `none`. -/
def lastIdxOf (c : Char) : List Char → Option Nat
  | [] => none
  | x :: t =>
    match lastIdxOf c t with
    | some j => some (j + 1)
    | none => if x = c then some 0 else none

/-- `mailFromRE.FindStringSubmatch(arg)` capture group (src/smtpd.go line 22,
used at line 331): at each start position, if the tag `[Ff][Rr][Oo][Mm]:<`
matches, the greedy `(.*)` runs to the last `>` before any newline; if no such
`>` exists the scan resumes at the next start position. -/
def mailFromMatch : List Char → Option (List Char)
  | [] => none
  | s@(_ :: t) =>
    if fromTagAt s then
      let region := (s.drop 6).takeWhile (fun c => c ≠ '\n')
      match lastIdxOf '>' region with
      | some j => some (region.take j)
      | none => mailFromMatch t
    else mailFromMatch t

/-- `rcptToRE.FindStringSubmatch(arg)` capture group (src/smtpd.go line 20,
used at line 407); `(.+)` requires a non-empty capture, so the last `>` in the
region must not sit directly after the tag. -/
def rcptToMatch : List Char → Option (List Char)
  | [] => none
  | s@(_ :: t) =>
    if toTagAt s then
      let region := (s.drop 4).takeWhile (fun c => c ≠ '\n')
      match lastIdxOf '>' region with
      | some j => if 1 ≤ j then some (region.take j) else rcptToMatch t
      | none => rcptToMatch t
    else rcptToMatch t

/-! ## Client and Envelope (src/smtpd.go lines 165-174, src/smtpd/envelope.go lines 23-64) -/

/-- `type Client struct` (src/smtpd.go lines 165-170); the peer address is kept
as its string rendering (`net.Addr.String()` is all the source uses). -/
structure Client where
  HeloType : List Char
  HeloHost : List Char
  Pregreeted : Bool
  addr : List Char
deriving DecidableEq

/-- `type Envelope struct` (envelope.go lines 23-28). -/
structure Envelope where
  client : Client
  sender : MailAddress
  recipients : List MailAddress
  data : List Char
deriving DecidableEq

/-- `func (e *Envelope) AddRecipient(rcpt MailAddress)` (envelope.go
lines 30-32): append to the recipient slice. -/
def Envelope.AddRecipient (e : Envelope) (rcpt : MailAddress) : Envelope :=
  { e with recipients := e.recipients ++ [rcpt] }

/-- `func (e *Envelope) AddReceivedHeader(serverHostname string)` (envelope.go
lines 34-64). Go panics are modelled as `.error msg`: the unknown-HeloType
branch (line 51) panics with `"Unknown HeloType " + HeloType`, and indexing
`e.Recipients[0]` on an empty slice (line 56) is a Go runtime panic, modelled
here with the message `"index out of range"`. The HeloType branch runs first,
matching the order of the writes in the source. `time.Now().Format(...)` is
supplied as the explicit `now` argument. -/
def Envelope.AddReceivedHeader (e : Envelope) (serverHostname now : List Char) :
    Except (List Char) Envelope :=
  let head1 := str "Received: from " ++ e.client.HeloHost ++ str " [" ++
    e.client.addr ++ str "]\r\n\tby " ++ serverHostname ++ str " (spamrake) with "
  if e.client.HeloType = str "HELO" then
    match e.recipients with
    | [] => .error (str "index out of range")
    | r0 :: _ =>
      .ok { e with data := (head1 ++ str "SMTP" ++ str "\r\n\tfor <" ++
        MailAddress.Email r0 ++ str ">; " ++ now ++ str "\r\n" ++ e.data) }
  else if e.client.HeloType = str "EHLO" then
    match e.recipients with
    | [] => .error (str "index out of range")
    | r0 :: _ =>
      .ok { e with data := (head1 ++ str "ESMTP" ++ str "\r\n\tfor <" ++
        MailAddress.Email r0 ++ str ">; " ++ now ++ str "\r\n" ++ e.data) }
  else .error (str "Unknown HeloType " ++ e.client.HeloType)

/-! ## Session (src/smtpd.go lines 176-469) -/

/-- The per-session mutable state touched by the command handlers: the Client
record and the current envelope (`s.client`, `s.env`; src/smtpd.go
lines 182-183). -/
structure SessState where
  client : Client
  env : Option Envelope
deriving DecidableEq

/-- The server-side inputs of one session: the resolved hostname
(`srv.hostname()`), the result of the one `OnNewConnection` call (`none` when
no hook is set or for the hook result nil), the `OnMailFrom`/`OnRcptTo` hooks
as functions from the parsed address to the error they return, the `Deliver`
hook, the pregreet delay (only its zero test matters to the control flow), and
the formatted wall-clock time used by `AddReceivedHeader`. -/
structure Config where
  hostname : List Char
  OnNewConn : Option GoError
  OnMailFrom : Option (MailAddress → Option GoError)
  OnRcptTo : Option (MailAddress → Option GoError)
  Deliver : Envelope → Option GoError
  PregreetDelay : Nat
  now : List Char

/-- `func (s *session) sendSMTPErrorOrLinef` (src/smtpd.go lines 217-223):
an `SMTPError` is written verbatim, anything else gets the formatted default
line. The result is the reply line written (without its CRLF). -/
def sendSMTPErrorOrLinef (err : GoError) (deflt : List Char) : List Char :=
  match err with
  | .smtp s => s
  | .other => deflt

/-- The result of one policy-hook invocation: when no hook is set the code
skips the call (`cb != nil` tests at src/smtpd.go lines 384, 416), which has
the same effect as a hook returning nil. -/
def callHook (hook : Option (MailAddress → Option GoError)) (a : MailAddress) :
    Option GoError :=
  match hook with
  | none => none
  | some cb => cb a

/-- `func (s *session) handleMailFrom(email string)` (src/smtpd.go
lines 371-394), returning the updated state and the reply lines written. -/
def handleMailFrom (cfg : Config) (st : SessState) (email : List Char) :
    SessState × List (List Char) :=
  match st.env with
  | some _ => (st, [str "503 5.5.1 Error: nested MAIL command"])
  | none =>
    match callHook cfg.OnMailFrom email with
    | some err => (st, [sendSMTPErrorOrLinef err (str "550 5.0.0 unacceptable sender")])
    | none =>
      ({ st with env := some { client := st.client, sender := email,
                               recipients := [], data := [] } },
       [str "250 2.1.0 Ok"])

/-- `func (s *session) handleRcpt(line cmdLine)` (src/smtpd.go lines 396-425). -/
def handleRcpt (cfg : Config) (st : SessState) (line : cmdLine) :
    SessState × List (List Char) :=
  match st.env with
  | none => (st, [str "503 5.5.1 Error: need MAIL command"])
  | some env =>
    match rcptToMatch (cmdLine.Arg line) with
    | none => (st, [str "501 5.1.7 Bad sender address syntax"])
    | some m =>
      match callHook cfg.OnRcptTo m with
      | some err => (st, [sendSMTPErrorOrLinef err (str "550 5.0.0 unacceptable recipient")])
      | none => ({ st with env := some (env.AddRecipient m) }, [str "250 2.1.0 Ok"])

/-- The transparent-dot unescaping applied to one non-terminator wire line
(src/smtpd.go lines 444-446): `if sl[0] == '.' { sl = sl[1:] }`. A line
delivered by `ReadSlice('\n')` always ends in a newline, hence is non-empty,
so the head test is total. -/
def unstuffLine (sl : List Char) : List Char :=
  if sl.head? = some '.' then sl.tail else sl

/-- The body-collection loop of `handleData` (src/smtpd.go lines 434-448):
consume input lines until the terminator `.\r\n`; a line starting with `.`
loses that first byte; everything else is appended verbatim. Returns the body
and the remaining input on success; `none` models `ReadSlice` failing (input
exhausted), after which `handleData` returns without reply. -/
def dataLoop : List (List Char) → List Char → Option (List Char × List (List Char))
  | [], _ => none
  | sl :: rest, buf =>
    if sl = str ".\r\n" then some (buf, rest)
    else dataLoop rest (buf ++ unstuffLine sl)

/-- The outcome of `handleData` (src/smtpd.go lines 427-460): the state after
the call, the reply lines written, the envelopes passed to `Deliver`, a panic
message when `AddReceivedHeader` panicked, and the input remaining for the
command loop. -/
structure DataResult where
  st : SessState
  sent : List (List Char)
  delivered : List Envelope
  panicMsg : Option (List Char)
  remaining : List (List Char)

/-- `func (s *session) handleData()` (src/smtpd.go lines 427-460). With no
envelope: `503` and no input consumed. Otherwise `354 Go ahead`, then the body
loop; on read failure the handler returns silently with the input exhausted
(the command loop then hits the same failure); on success the body is stored,
`AddReceivedHeader` runs (its panic, unrecovered in Go, ends the session), the
`Deliver` hook is invoked and the reply chosen by its result; the envelope is
cleared on both delivery outcomes. -/
def handleData (cfg : Config) (st : SessState) (rest : List (List Char)) : DataResult :=
  match st.env with
  | none => ⟨st, [str "503 5.5.1 Error: need RCPT command"], [], none, rest⟩
  | some env =>
    match dataLoop rest [] with
    | none => ⟨st, [str "354 Go ahead"], [], none, []⟩
    | some (body, rest2) =>
      let env := { env with data := body }
      match env.AddReceivedHeader cfg.hostname cfg.now with
      | .error m => ⟨st, [str "354 Go ahead"], [], some m, rest2⟩
      | .ok env2 =>
        match cfg.Deliver env2 with
        | some e =>
          ⟨{ st with env := none },
           [str "354 Go ahead",
            sendSMTPErrorOrLinef e (str "450 4.3.0 Service unavailable")],
           [env2], none, rest2⟩
        | none =>
          ⟨{ st with env := none },
           [str "354 Go ahead", str "250 2.0.0 Ok: queued"],
           [env2], none, rest2⟩

/-- How a session run ends: `quit` after the QUIT verb, `eof` when the input is
exhausted (a read error in Go — the session returns without further reply), or
`panicked` for an unrecovered Go panic. -/
inductive Outcome where
  | quit
  | eof
  | panicked (msg : List Char)
deriving DecidableEq

/-- Observable result of running a session: every reply line written (without
CRLF), every envelope handed to `Deliver`, the final session state, and how
the run ended. -/
structure SessResult where
  sent : List (List Char)
  delivered : List Envelope
  state : SessState
  outcome : Outcome
deriving DecidableEq

/-- Prepend reply lines to a session result. -/
def withSent (ls : List (List Char)) (r : SessResult) : SessResult :=
  { r with sent := ls ++ r.sent }

/-- Prepend delivered envelopes to a session result. -/
def withDelivered (es : List Envelope) (r : SessResult) : SessResult :=
  { r with delivered := es ++ r.delivered }

/-- The EHLO reply block (src/smtpd.go lines 355-369). -/
def ehloReply (hostname : List Char) : List (List Char) :=
  [str "250-" ++ hostname, str "250-PIPELINING", str "250-SIZE 10240000",
   str "250-ENHANCEDSTATUSCODES", str "250-8BITMIME", str "250 DSN"]

/-- The command loop of `func (s *session) serve` (src/smtpd.go lines 283-347),
run over an explicit list of input lines (each line as delivered by
`ReadSlice('\n')`, terminator included); exhausting the list models a read
error / EOF, upon which the session returns (src line 304). Cancellation never
firing is assumed (the claims about the command loop concern uncancelled runs).
Each iteration validates the line (`500` on failure, loop continues) and
dispatches on the verb exactly as the source switch does; `handleData` may
consume further input lines and may end the session by an unrecovered panic.
The `fuel` argument only forces structural recursion: every iteration consumes
at least one input line, so the `serveLines` wrapper below supplies enough
fuel that the `0` case is never reached. -/
def serveLoop (cfg : Config) : Nat → SessState → List (List Char) → SessResult
  | 0, st, _ => ⟨[], [], st, .eof⟩
  | _ + 1, st, [] => ⟨[], [], st, .eof⟩
  | fuel + 1, st, line :: rest =>
    match cmdLine.checkValid line with
    | some err => withSent [str "500 " ++ err] (serveLoop cfg fuel st rest)
    | none =>
      if cmdLine.Verb line = str "HELO" then
        withSent [str "250 " ++ cfg.hostname]
          (serveLoop cfg fuel
            { st with client :=
              { st.client with HeloType := str "HELO", HeloHost := cmdLine.Arg line } } rest)
      else if cmdLine.Verb line = str "EHLO" then
        withSent (ehloReply cfg.hostname)
          (serveLoop cfg fuel
            { st with client :=
              { st.client with HeloType := str "EHLO", HeloHost := cmdLine.Arg line } } rest)
      else if cmdLine.Verb line = str "QUIT" then
        ⟨[str "221 2.0.0 Bye"], [], st, .quit⟩
      else if cmdLine.Verb line = str "RSET" then
        withSent [str "250 2.0.0 OK"] (serveLoop cfg fuel { st with env := none } rest)
      else if cmdLine.Verb line = str "NOOP" then
        withSent [str "250 2.0.0 OK"] (serveLoop cfg fuel st rest)
      else if cmdLine.Verb line = str "MAIL" then
        match mailFromMatch (cmdLine.Arg line) with
        | none =>
          withSent [str "501 5.1.7 Bad sender address syntax"] (serveLoop cfg fuel st rest)
        | some m =>
          let p := handleMailFrom cfg st m
          withSent p.2 (serveLoop cfg fuel p.1 rest)
      else if cmdLine.Verb line = str "RCPT" then
        let p := handleRcpt cfg st line
        withSent p.2 (serveLoop cfg fuel p.1 rest)
      else if cmdLine.Verb line = str "DATA" then
        let d := handleData cfg st rest
        match d.panicMsg with
        | some m => ⟨d.sent, d.delivered, d.st, .panicked m⟩
        | none => withSent d.sent (withDelivered d.delivered (serveLoop cfg fuel d.st d.remaining))
      else
        withSent [str "502 5.5.2 Error: command not recognized"] (serveLoop cfg fuel st rest)

/-- The command loop on an input-line list, with fuel ample by construction:
each `serveLoop` iteration consumes at least one line (`handleData` consumes
lines from `rest` only), so `lines.length + 1` steps always suffice and the
fuel-exhaustion branch is unreachable. -/
def serveLines (cfg : Config) (st : SessState) (lines : List (List Char)) : SessResult :=
  serveLoop cfg (lines.length + 1) st lines

/-! ## Pre-greeting probe and session entry (src/smtpd.go lines 229-282) -/

/-- One polling step of the pregreet loop: the delay timer fires (`tick`,
ending the probe), a byte arrives, or the 100 ms read deadline expires /
the read fails (`readErr`, loop continues). The relative order of these
events abstracts the wall-clock race in src/smtpd.go lines 240-255. -/
inductive ProbeEv where
  | tick
  | byte (b : Char)
  | readErr

/-- The byte-collection loop of `pregreetCheck` (src/smtpd.go lines 240-255):
stop on the timer tick or after collecting a newline byte; read failures
leave the buffer unchanged. -/
def pregreetLoop : List ProbeEv → List Char → List Char
  | [], buf => buf
  | .tick :: _, buf => buf
  | .readErr :: rest, buf => pregreetLoop rest buf
  | .byte b :: rest, buf =>
    if b = '\n' then buf ++ [b] else pregreetLoop rest (buf ++ [b])

/-- `func (s *session) pregreetCheck()` (src/smtpd.go lines 232-263): sends
`220-Wait`, collects bytes, and returns the collected line when non-empty,
the empty string otherwise. Result: (lines sent, returned line). -/
def pregreetCheck (evs : List ProbeEv) : List (List Char) × List Char :=
  let buf := pregreetLoop evs []
  ([str "220-Wait"], if buf ≠ [] then buf else [])

/-- `func (s *session) serve(ctx)` up to and including the command loop
(src/smtpd.go lines 265-347): the `OnNewConnection` gate (reply and close on a
non-nil hook result), the pregreet probe when `PregreetDelay != 0` (setting
`Pregreeted` when the probe returned a line, and feeding that line to the
command loop as the first line consumed, per the `preline` logic of lines
291-310), the `220 <hostname> ESMTP` greeting, then the command loop. -/
def serveConn (cfg : Config) (client0 : Client) (probe : List ProbeEv)
    (lines : List (List Char)) : SessResult :=
  match cfg.OnNewConn with
  | some err =>
    ⟨[sendSMTPErrorOrLinef err (str "554 connection rejected")], [],
     ⟨client0, none⟩, .eof⟩
  | none =>
    let pre : List (List Char) × List Char :=
      if cfg.PregreetDelay ≠ 0 then pregreetCheck probe else ([], [])
    let client1 := if pre.2 ≠ [] then { client0 with Pregreeted := true } else client0
    let r := serveLines cfg ⟨client1, none⟩ ((if pre.2 = [] then [] else [pre.2]) ++ lines)
    { r with sent := pre.1 ++ [str "220 " ++ cfg.hostname ++ str " ESMTP"] ++ r.sent }

/-! ## The accept loop (src/smtpd.go lines 111-153) -/

/-- The three events the `select` of `Serve` multiplexes (src/smtpd.go lines
137-149): the context is cancelled, the acceptor goroutine delivers its fatal
accept error (src lines 124-126; the received value is discarded by
`case <-acceptErr:`), or a connection is handed over. -/
inductive ServeEvent where
  | ctxDone
  | acceptFatal
  | conn
deriving DecidableEq

/-- Loop state of `Serve`: the `stop` flag and the number of sessions spawned
(each `wg.Add(1)` + goroutine, src lines 143-148). -/
structure ServeState where
  stop : Bool
  spawned : Nat
deriving DecidableEq

/-- One iteration of the `select` in `Serve` (src/smtpd.go lines 137-149). -/
def serveStep (st : ServeState) : ServeEvent → ServeState
  | .ctxDone => { st with stop := true }
  | .acceptFatal => { st with stop := true }
  | .conn => { st with spawned := st.spawned + 1 }

/-- The `for !stop` loop of `Serve` (src/smtpd.go lines 136-150) over an
explicit event sequence. -/
def serveRun : ServeState → List ServeEvent → ServeState
  | st, [] => st
  | st, e :: rest => if st.stop then st else serveRun (serveStep st e) rest

/-- `func (srv *Server) Serve(ctx, ln) error` (src/smtpd.go lines 111-153):
run the loop, then `wg.Wait()` and `return nil` (lines 151-152). The returned
error is `nil` on every path — the fatal accept error sent on the `acceptErr`
channel at line 125 is never bound by the receiver. The result pairs the final
loop state with the returned error value. -/
def Serve (events : List ServeEvent) : ServeState × Option GoError :=
  (serveRun ⟨false, 0⟩ events, none)

/-! ## Concrete fixtures used to evaluate the model -/

/-- A server configuration with no hooks set, hostname `server.invalid`
(the test fixture hostname, src/smtpd/smtpd_test.go line 10) and the pregreet
probe disabled. -/
def cfgDemo : Config :=
  { hostname := str "server.invalid", OnNewConn := none, OnMailFrom := none,
    OnRcptTo := none, Deliver := fun _ => none, PregreetDelay := 0,
    now := str "Mon, 02 Jan 2006 15:04:05 -0700" }

/-- The same configuration with the pregreet probe enabled. -/
def cfgPre : Config := { cfgDemo with PregreetDelay := 5 }

/-- A freshly-accepted client (src/smtpd.go line 192): only the peer address
is set. -/
def clientDemo : Client :=
  { HeloType := [], HeloHost := [], Pregreeted := false, addr := str "127.0.0.1:54321" }

/-! # Theorems -/

/-- `stringsIndexChar` misses exactly the absent characters. -/
theorem stringsIndexChar_eq_none (c : Char) (l : List Char) (h : c ∉ l) :
    stringsIndexChar c l = none := by
  induction l with
  | nil => rfl
  | cons x t ih =>
    simp only [List.mem_cons, not_or] at h
    simp [stringsIndexChar, Ne.symm h.1, ih h.2]

/-- `stringsIndexChar` finds the first occurrence. -/
theorem stringsIndexChar_append (c : Char) (b t : List Char) (hb : c ∉ b) :
    stringsIndexChar c (b ++ c :: t) = some b.length := by
  induction b with
  | nil => simp [stringsIndexChar]
  | cons x bt ih =>
    simp only [List.mem_cons, not_or] at hb
    simp [stringsIndexChar, Ne.symm hb.1, ih hb.2]

/-- C3 counterexample: the claim says `Hostname()` returns the lower-cased
substring after the LAST `@`, which at the address `a@B@C` would be `c`; the
code takes `strings.Index`, the FIRST `@`, and returns `b@c`. -/
theorem hostname_last_at_counterexample :
    MailAddress.Hostname (str "a@B@C") = str "b@c" ∧
    MailAddress.Hostname (str "a@B@C") ≠ str "c" := by
  decide

/-- C3 (amended): for every MailAddress string a, `Hostname()` returns the
lower-cased substring of a after the FIRST `@` character, and returns the
empty string when a contains no `@`. -/
theorem hostname_first_at (a : MailAddress) :
    (∀ b c : List Char, a = b ++ '@' :: c → '@' ∉ b →
      MailAddress.Hostname a = stringsToLower c) ∧
    ('@' ∉ a → MailAddress.Hostname a = []) := by
  constructor
  · intro b c hbc hb
    subst hbc
    have hdrop : (b ++ '@' :: c).drop (b.length + 1) = c := by
      have h2 : b ++ '@' :: c = (b ++ ['@']) ++ c := by simp
      have h3 : (b ++ ['@']).length = b.length + 1 := by simp
      rw [h2, ← h3, List.drop_left]
    simp [MailAddress.Hostname, stringsIndexChar_append '@' b c hb, hdrop]
  · intro h
    rw [MailAddress.Hostname, stringsIndexChar_eq_none '@' a h]

/-- C3 witness: `hostname_first_at` applied at the concrete address `x@Y@z`. -/
theorem hostname_first_at_witness :
    MailAddress.Hostname (str "x@Y@z") = stringsToLower (str "Y@z") :=
  (hostname_first_at (str "x@Y@z")).1 (str "x") (str "Y@z") (by decide) (by decide)

/-- C4: for every RCPT TO command processed while an envelope exists: when the
address parses and the hook reports success (including when no hook is set,
since `callHook none` is success), the recipient list grows by exactly one —
the parsed address appended at the end — and the reply is `250 2.1.0 Ok`; when
the address fails to parse, or the hook fails, the session state (and with it
the recipient list) is unchanged. -/
theorem handleRcpt_frame (cfg : Config) (st : SessState) (env : Envelope)
    (line : cmdLine) (henv : st.env = some env) :
    (∀ m, rcptToMatch (cmdLine.Arg line) = some m →
        callHook cfg.OnRcptTo m = none →
        handleRcpt cfg st line =
          ({ st with env := some { env with recipients := env.recipients ++ [m] } },
           [str "250 2.1.0 Ok"])) ∧
    (rcptToMatch (cmdLine.Arg line) = none → (handleRcpt cfg st line).1 = st) ∧
    (∀ m e, rcptToMatch (cmdLine.Arg line) = some m →
        callHook cfg.OnRcptTo m = some e → (handleRcpt cfg st line).1 = st) := by
  refine ⟨?_, ?_, ?_⟩
  · intro m hm hres
    simp [handleRcpt, henv, hm, hres, Envelope.AddRecipient]
  · intro hm
    simp [handleRcpt, henv, hm]
  · intro m e hm hres
    simp [handleRcpt, henv, hm, hres]

/-- C4 witness: `handleRcpt_frame` applied to a concrete hook-free
configuration, a one-recipient envelope and the line `RCPT TO:<c@d>`. -/
theorem handleRcpt_frame_witness :
    handleRcpt cfgDemo
        ⟨clientDemo, some ⟨clientDemo, str "a@b", [str "r1"], []⟩⟩
        (str "RCPT TO:<c@d>\r\n") =
      (⟨clientDemo, some ⟨clientDemo, str "a@b", [str "r1", str "c@d"], []⟩⟩,
       [str "250 2.1.0 Ok"]) := by
  have h := (handleRcpt_frame cfgDemo
    ⟨clientDemo, some ⟨clientDemo, str "a@b", [str "r1"], []⟩⟩
    ⟨clientDemo, str "a@b", [str "r1"], []⟩
    (str "RCPT TO:<c@d>\r\n") rfl).1 (str "c@d") (by decide) rfl
  simpa using h

/-- C5: for every MAIL FROM command with a parsed address and no current
envelope: a hook success (or no hook) creates the envelope holding the sender
and the Client snapshot and replies `250 2.1.0 Ok`; a hook failure carrying an
`SMTPError` writes that string verbatim; any other hook failure writes
`550 5.0.0 unacceptable sender`; in both failure cases the state — hence the
absence of an envelope — is unchanged. -/
theorem handleMailFrom_cases (cfg : Config) (st : SessState) (email : List Char)
    (henv : st.env = none) :
    (callHook cfg.OnMailFrom email = none →
        handleMailFrom cfg st email =
          ({ st with env := some { client := st.client, sender := email,
                                   recipients := [], data := [] } },
           [str "250 2.1.0 Ok"])) ∧
    (∀ s, callHook cfg.OnMailFrom email = some (.smtp s) →
        handleMailFrom cfg st email = (st, [s])) ∧
    (callHook cfg.OnMailFrom email = some .other →
        handleMailFrom cfg st email = (st, [str "550 5.0.0 unacceptable sender"])) := by
  refine ⟨?_, ?_, ?_⟩
  · intro hres
    simp [handleMailFrom, henv, hres]
  · intro s hres
    simp [handleMailFrom, henv, hres, sendSMTPErrorOrLinef]
  · intro hres
    simp [handleMailFrom, henv, hres, sendSMTPErrorOrLinef]

/-- C5 witness: `handleMailFrom_cases` with a hook that rejects the sender
with an `SMTPError`, whose text is then the verbatim reply and no envelope is
created. -/
theorem handleMailFrom_cases_witness :
    handleMailFrom
        { cfgDemo with OnMailFrom := some (fun _ => some (.smtp (str "553 5.7.1 go away"))) }
        ⟨clientDemo, none⟩ (str "a@b") =
      (⟨clientDemo, none⟩, [str "553 5.7.1 go away"]) :=
  (handleMailFrom_cases
    { cfgDemo with OnMailFrom := some (fun _ => some (.smtp (str "553 5.7.1 go away"))) }
    ⟨clientDemo, none⟩ (str "a@b") rfl).2.1 (str "553 5.7.1 go away") rfl

/-- C6 counterexample: the claim says the body bytes passed to deliver contain
no line equal to `.\r\n`; but the wire body `..\r\n` (a dot-stuffed line
consisting of a single dot) followed by the terminator unstuffs to the body
`.\r\n` — a body whose one line is exactly `.\r\n`. -/
theorem dataLoop_dot_line_counterexample :
    dataLoop [str "..\r\n", str ".\r\n"] [] = some (str ".\r\n", []) ∧
    str ".\r\n" ≠ [] := by
  decide

/-- C6 (amended): for every completed DATA phase, the terminating `.\r\n` wire
line is not part of the body and is consumed, and each preceding wire line
contributes exactly its unstuffed form — a line whose wire form began with `.`
has exactly that one leading byte removed, with the rest of the line (its CRLF
included) preserved; other lines are appended verbatim, in order. (The body
CAN contain a line equal to `.\r\n`, produced by the wire line `..\r\n`; see
the counterexample.) -/
theorem dataLoop_unstuffs (ls rest : List (List Char)) (buf : List Char)
    (h : ∀ l ∈ ls, l ≠ str ".\r\n") :
    dataLoop (ls ++ str ".\r\n" :: rest) buf =
      some (buf ++ (ls.map unstuffLine).flatten, rest) := by
  induction ls generalizing buf with
  | nil => simp [dataLoop]
  | cons x t ih =>
    have hx : x ≠ str ".\r\n" := h x (List.mem_cons_self x t)
    have ht : ∀ l ∈ t, l ≠ str ".\r\n" := fun l hl => h l (List.mem_cons_of_mem x hl)
    simp only [List.cons_append, dataLoop, if_neg hx]
    rw [show t.append (str ".\r\n" :: rest) = t ++ str ".\r\n" :: rest from rfl,
      ih (buf ++ unstuffLine x) ht]
    simp

/-- C6 witness: the spec's own example — wire body
`.Leading dot\r\nOK\r\n.\r\n` yields body bytes `Leading dot\r\nOK\r\n`. -/
theorem dataLoop_unstuffs_witness :
    dataLoop [str ".Leading dot\r\n", str "OK\r\n", str ".\r\n"] [] =
      some (str "Leading dot\r\nOK\r\n", []) := by
  have h := dataLoop_unstuffs [str ".Leading dot\r\n", str "OK\r\n"] [] [] (by decide)
  simpa using h

/-- C7: each transaction-state violation — MAIL with an existing envelope,
RCPT with no envelope, DATA with no envelope — elicits the respective 503
reply, leaves the session state (in particular the envelope) unchanged, and
the command loop continues on the remaining input with that same state. -/
theorem transaction_state_503 (cfg : Config) (st : SessState) (line : cmdLine)
    (rest : List (List Char)) (hcv : cmdLine.checkValid line = none) :
    (∀ env m, st.env = some env → cmdLine.Verb line = str "MAIL" →
        mailFromMatch (cmdLine.Arg line) = some m →
        serveLines cfg st (line :: rest) =
          withSent [str "503 5.5.1 Error: nested MAIL command"]
            (serveLines cfg st rest)) ∧
    (st.env = none → cmdLine.Verb line = str "RCPT" →
        serveLines cfg st (line :: rest) =
          withSent [str "503 5.5.1 Error: need MAIL command"]
            (serveLines cfg st rest)) ∧
    (st.env = none → cmdLine.Verb line = str "DATA" →
        serveLines cfg st (line :: rest) =
          withSent [str "503 5.5.1 Error: need RCPT command"]
            (serveLines cfg st rest)) := by
  refine ⟨?_, ?_, ?_⟩
  · intro env m henv hv hm
    simp +decide [serveLines, serveLoop, hcv, hv, hm, handleMailFrom, henv, withSent]
  · intro henv hv
    simp +decide [serveLines, serveLoop, hcv, hv, handleRcpt, henv, withSent]
  · intro henv hv
    simp +decide [serveLines, serveLoop, hcv, hv, handleData, henv, withSent,
      withDelivered]

/-- C7 witness: the DATA violation at a concrete fresh session, plus concrete
MAIL and RCPT violations, each via `transaction_state_503`. -/
theorem transaction_state_503_witness :
    serveLines cfgDemo ⟨clientDemo, none⟩ [str "DATA\r\n"] =
      withSent [str "503 5.5.1 Error: need RCPT command"]
        (serveLines cfgDemo ⟨clientDemo, none⟩ []) ∧
    serveLines cfgDemo ⟨clientDemo, none⟩ [str "RCPT TO:<c@d>\r\n"] =
      withSent [str "503 5.5.1 Error: need MAIL command"]
        (serveLines cfgDemo ⟨clientDemo, none⟩ []) ∧
    serveLines cfgDemo ⟨clientDemo, some ⟨clientDemo, str "a@b", [], []⟩⟩
        [str "MAIL FROM:<x@y>\r\n"] =
      withSent [str "503 5.5.1 Error: nested MAIL command"]
        (serveLines cfgDemo ⟨clientDemo, some ⟨clientDemo, str "a@b", [], []⟩⟩ []) :=
  ⟨(transaction_state_503 cfgDemo ⟨clientDemo, none⟩ (str "DATA\r\n") []
      (by decide)).2.2 rfl (by decide),
   (transaction_state_503 cfgDemo ⟨clientDemo, none⟩ (str "RCPT TO:<c@d>\r\n") []
      (by decide)).2.1 rfl (by decide),
   (transaction_state_503 cfgDemo ⟨clientDemo, some ⟨clientDemo, str "a@b", [], []⟩⟩
      (str "MAIL FROM:<x@y>\r\n") [] (by decide)).1
      ⟨clientDemo, str "a@b", [], []⟩ (str "x@y") rfl (by decide) (by decide)⟩

/-- `lastIdxOf` misses exactly the absent characters. -/
theorem lastIdxOf_eq_none (c : Char) (l : List Char) (h : c ∉ l) :
    lastIdxOf c l = none := by
  induction l with
  | nil => rfl
  | cons x t ih =>
    simp only [List.mem_cons, not_or] at h
    simp [lastIdxOf, ih h.2, Ne.symm h.1]

/-- `lastIdxOf` finds the final occurrence. -/
theorem lastIdxOf_append_singleton (c : Char) (a : List Char) (h : c ∉ a) :
    lastIdxOf c (a ++ [c]) = some a.length := by
  induction a with
  | nil => simp [lastIdxOf]
  | cons x t ih =>
    simp only [List.mem_cons, not_or] at h
    simp [lastIdxOf, ih h.2]

/-- An argument without `>` cannot match `mailFromRE` (the pattern needs the
closing bracket). -/
theorem mailFromMatch_eq_none_of_no_gt (s : List Char) (h : '>' ∉ s) :
    mailFromMatch s = none := by
  induction s with
  | nil => rfl
  | cons x t ih =>
    have ht : '>' ∉ t := fun hm => h (List.mem_cons_of_mem x hm)
    have hreg : '>' ∉ List.takeWhile (fun c => !decide (c = '\n')) (List.drop 5 t) := by
      intro hm
      exact ht (List.drop_subset 5 t ((List.takeWhile_sublist _).subset hm))
    have hnone := lastIdxOf_eq_none '>' _ hreg
    by_cases htag : fromTagAt (x :: t)
    · simp [mailFromMatch, htag, hnone, ih ht]
    · simp [mailFromMatch, htag, ih ht]

/-- An argument without `>` cannot match `rcptToRE` either. -/
theorem rcptToMatch_eq_none_of_no_gt (s : List Char) (h : '>' ∉ s) :
    rcptToMatch s = none := by
  induction s with
  | nil => rfl
  | cons x t ih =>
    have ht : '>' ∉ t := fun hm => h (List.mem_cons_of_mem x hm)
    have hreg : '>' ∉ List.takeWhile (fun c => !decide (c = '\n')) (List.drop 3 t) := by
      intro hm
      exact ht (List.drop_subset 3 t ((List.takeWhile_sublist _).subset hm))
    have hnone := lastIdxOf_eq_none '>' _ hreg
    by_cases htag : toTagAt (x :: t)
    · simp [rcptToMatch, htag, hnone, ih ht]
    · simp [rcptToMatch, htag, ih ht]

/-- `mailFromRE` matches its tag case-insensitively and captures the bracket
contents greedily; proof for a capture free of `>` and newline. -/
theorem mailFromMatch_tagged (c1 c2 c3 c4 : Char) (a : List Char)
    (h1 : c1 = 'F' ∨ c1 = 'f') (h2 : c2 = 'R' ∨ c2 = 'r')
    (h3 : c3 = 'O' ∨ c3 = 'o') (h4 : c4 = 'M' ∨ c4 = 'm')
    (hgt : '>' ∉ a) (hnl : '\n' ∉ a) :
    mailFromMatch (c1 :: c2 :: c3 :: c4 :: ':' :: '<' :: (a ++ ['>'])) = some a := by
  have htag : fromTagAt (c1 :: c2 :: c3 :: c4 :: ':' :: '<' :: (a ++ ['>'])) = true := by
    rcases h1 with rfl | rfl <;> rcases h2 with rfl | rfl <;>
      rcases h3 with rfl | rfl <;> rcases h4 with rfl | rfl <;> simp [fromTagAt]
  have hTW : List.takeWhile (fun c => !decide (c = '\n')) (a ++ ['>']) = a ++ ['>'] := by
    apply List.takeWhile_eq_self_iff.mpr
    intro c hc
    rcases List.mem_append.mp hc with hca | hcg
    · have hcn : c ≠ '\n' := fun hEq => hnl (hEq ▸ hca)
      simp [hcn]
    · have hcg2 : c = '>' := by simpa using hcg
      subst hcg2
      simp
  have hlast := lastIdxOf_append_singleton '>' a hgt
  simp [mailFromMatch, htag, hTW, hlast, List.take_left]

/-- `rcptToRE` likewise, but the capture must be non-empty (`.+`). -/
theorem rcptToMatch_tagged (c1 c2 : Char) (a : List Char)
    (h1 : c1 = 'T' ∨ c1 = 't') (h2 : c2 = 'O' ∨ c2 = 'o')
    (h0 : a ≠ []) (hgt : '>' ∉ a) (hnl : '\n' ∉ a) :
    rcptToMatch (c1 :: c2 :: ':' :: '<' :: (a ++ ['>'])) = some a := by
  have htag : toTagAt (c1 :: c2 :: ':' :: '<' :: (a ++ ['>'])) = true := by
    rcases h1 with rfl | rfl <;> rcases h2 with rfl | rfl <;> simp [toTagAt]
  have hTW : List.takeWhile (fun c => !decide (c = '\n')) (a ++ ['>']) = a ++ ['>'] := by
    apply List.takeWhile_eq_self_iff.mpr
    intro c hc
    rcases List.mem_append.mp hc with hca | hcg
    · have hcn : c ≠ '\n' := fun hEq => hnl (hEq ▸ hca)
      simp [hcn]
    · have hcg2 : c = '>' := by simpa using hcg
      subst hcg2
      simp
  have hlast := lastIdxOf_append_singleton '>' a hgt
  have hlen : 1 ≤ a.length := List.length_pos.mpr h0
  simp [rcptToMatch, htag, hTW, hlast, hlen, List.take_left]

/-- C8: address extraction for MAIL and RCPT matches the `FROM:<...>` /
`TO:<...>` tags case-insensitively (each tag letter in either case) and
captures the literal bracket contents; the capture may be empty for MAIL —
`MAIL FROM:<>` is accepted, creating an envelope with the empty sender — while
an argument containing `<` but no `>` fails to parse, the spec example
eliciting exactly `501 5.1.7 Bad sender address syntax`. -/
theorem address_extraction_spec :
    (∀ (c1 c2 c3 c4 : Char) (a : List Char),
        c1 = 'F' ∨ c1 = 'f' → c2 = 'R' ∨ c2 = 'r' → c3 = 'O' ∨ c3 = 'o' →
        c4 = 'M' ∨ c4 = 'm' → '>' ∉ a → '\n' ∉ a →
        mailFromMatch (c1 :: c2 :: c3 :: c4 :: ':' :: '<' :: (a ++ ['>'])) = some a) ∧
    (∀ (c1 c2 : Char) (a : List Char),
        c1 = 'T' ∨ c1 = 't' → c2 = 'O' ∨ c2 = 'o' → a ≠ [] → '>' ∉ a → '\n' ∉ a →
        rcptToMatch (c1 :: c2 :: ':' :: '<' :: (a ++ ['>'])) = some a) ∧
    mailFromMatch (str "FROM:<>") = some [] ∧
    rcptToMatch (str "TO:<>") = none ∧
    (∀ s : List Char, '>' ∉ s → mailFromMatch s = none ∧ rcptToMatch s = none) ∧
    (∀ (cfg : Config) (st : SessState) (rest : List (List Char)),
        st.env = none → cfg.OnMailFrom = none →
        serveLines cfg st (str "MAIL FROM:<>\r\n" :: rest) =
          withSent [str "250 2.1.0 Ok"]
            (serveLines cfg
              { st with env := some { client := st.client, sender := [],
                                      recipients := [], data := [] } } rest)) ∧
    (∀ (cfg : Config) (st : SessState) (rest : List (List Char)),
        serveLines cfg st (str "MAIL FROM: <superfluous.space@example.net\r\n" :: rest) =
          withSent [str "501 5.1.7 Bad sender address syntax"]
            (serveLines cfg st rest)) := by
  refine ⟨mailFromMatch_tagged, rcptToMatch_tagged, by decide, by decide, ?_, ?_, ?_⟩
  · exact fun s h => ⟨mailFromMatch_eq_none_of_no_gt s h, rcptToMatch_eq_none_of_no_gt s h⟩
  · intro cfg st rest henv hhook
    have hcv : cmdLine.checkValid (str "MAIL FROM:<>\r\n") = none := by decide
    have hm : mailFromMatch (cmdLine.Arg (str "MAIL FROM:<>\r\n")) = some [] := by decide
    simp +decide [serveLines, serveLoop, hcv, hm, handleMailFrom, henv, hhook,
      callHook, withSent]
  · intro cfg st rest
    have hcv : cmdLine.checkValid (str "MAIL FROM: <superfluous.space@example.net\r\n") =
        none := by decide
    have hm : mailFromMatch
        (cmdLine.Arg (str "MAIL FROM: <superfluous.space@example.net\r\n")) = none := by
      decide
    simp +decide [serveLines, serveLoop, hcv, hm, withSent]

/-- C8 witness: mixed-case tags with concrete addresses, and the spec example
of a missing closing bracket, all via `address_extraction_spec`. -/
theorem address_extraction_spec_witness :
    mailFromMatch (str "fRoM:<bob@client.invalid>") = some (str "bob@client.invalid") ∧
    rcptToMatch (str "To:<anyone@server.invalid>") = some (str "anyone@server.invalid") ∧
    mailFromMatch (str "FROM: <superfluous.space@example.net") = none := by
  refine ⟨?_, ?_, ?_⟩
  · have h := address_extraction_spec.1 'f' 'R' 'o' 'M' (str "bob@client.invalid")
      (by decide) (by decide) (by decide) (by decide) (by decide) (by decide)
    simpa using h
  · have h := address_extraction_spec.2.1 'T' 'o' (str "anyone@server.invalid")
      (by decide) (by decide) (by decide) (by decide) (by decide)
    simpa using h
  · exact (address_extraction_spec.2.2.2.2.1
      (str "FROM: <superfluous.space@example.net") (by decide)).1

/-- C9: with the pregreet probe active (`PregreetDelay != 0`) and the
connection not rejected, if the probe collected any bytes then the session's
`Pregreeted` flag is set and the collected line is the first line the command
loop consumes; if it collected none the flag stays as it was; in both cases
the probe banner `220-Wait` and then the final greeting `220 <hostname> ESMTP`
are sent before any command-loop output. -/
theorem pregreet_spec (cfg : Config) (client0 : Client) (probe : List ProbeEv)
    (lines : List (List Char)) (hd : cfg.PregreetDelay ≠ 0)
    (hn : cfg.OnNewConn = none) :
    (pregreetLoop probe [] ≠ [] →
      serveConn cfg client0 probe lines =
        withSent [str "220-Wait", str "220 " ++ cfg.hostname ++ str " ESMTP"]
          (serveLines cfg ⟨{ client0 with Pregreeted := true }, none⟩
            (pregreetLoop probe [] :: lines))) ∧
    (pregreetLoop probe [] = [] →
      serveConn cfg client0 probe lines =
        withSent [str "220-Wait", str "220 " ++ cfg.hostname ++ str " ESMTP"]
          (serveLines cfg ⟨client0, none⟩ lines)) := by
  constructor
  · intro hbuf
    simp [serveConn, hn, pregreetCheck, hd, hbuf, withSent]
  · intro hbuf
    simp [serveConn, hn, pregreetCheck, hd, hbuf, withSent]

/-- C9 witness: a probe in which the client sends `N`, `O` before the timer
tick: the flag is set and `NO` becomes the first (invalid) command line. -/
theorem pregreet_spec_witness :
    serveConn cfgPre clientDemo
        [ProbeEv.byte 'N', ProbeEv.byte 'O', ProbeEv.tick] [] =
      withSent [str "220-Wait", str "220 " ++ cfgPre.hostname ++ str " ESMTP"]
        (serveLines cfgPre ⟨{ clientDemo with Pregreeted := true }, none⟩
          [str "NO"]) := by
  have hbuf : pregreetLoop [ProbeEv.byte 'N', ProbeEv.byte 'O', ProbeEv.tick] [] =
      str "NO" := by decide
  have h := (pregreet_spec cfgPre clientDemo
    [ProbeEv.byte 'N', ProbeEv.byte 'O', ProbeEv.tick] [] (by decide) rfl).1
    (by rw [hbuf]; decide)
  rw [hbuf] at h
  exact h

/-- C1 evaluated at the failing input: after an accepted `MAIL FROM` and no
`RCPT TO`, the `DATA` command is NOT rejected — the session replies
`354 Go ahead`, collects the body, and then dies in `AddReceivedHeader`
indexing `Recipients[0]` of an empty slice (a Go runtime panic), instead of
answering `503 5.5.1 Error: need RCPT command` as the claimed contract
requires. -/
theorem data_zero_recipients_panics :
    serveConn cfgDemo clientDemo []
        [str "HELO h\r\n", str "MAIL FROM:<a@b>\r\n", str "DATA\r\n",
         str "hi\r\n", str ".\r\n"] =
      { sent := [str "220 server.invalid ESMTP", str "250 server.invalid",
                 str "250 2.1.0 Ok", str "354 Go ahead"],
        delivered := [],
        state := { client := { HeloType := str "HELO", HeloHost := str "h",
                               Pregreeted := false, addr := str "127.0.0.1:54321" },
                   env := some
                     { client := { HeloType := str "HELO", HeloHost := str "h",
                                   Pregreeted := false, addr := str "127.0.0.1:54321" },
                       sender := str "a@b", recipients := [], data := [] } },
        outcome := .panicked (str "index out of range") } := by
  decide

/-- C2 evaluated on both stop causes: `Serve` returns the nil error after
draining regardless of whether it stopped because the context was cancelled or
because the acceptor hit a fatal (non-temporary) accept error — the error sent
on the `acceptErr` channel is discarded, contradicting the function's own
documentation that a fatal accept error is returned. -/
theorem serve_returns_nil_always :
    Serve [ServeEvent.ctxDone] = ({ stop := true, spawned := 0 }, none) ∧
    Serve [ServeEvent.acceptFatal] = ({ stop := true, spawned := 0 }, none) := by
  decide

/-- C10: a session that never sends HELO/EHLO can run MAIL, RCPT and DATA to
completion (the command loop imposes no greeting prerequisite), upon which
`AddReceivedHeader` reaches its unknown-HeloType branch — the Client's
HeloType is still the empty string — and panics instead of producing a
Received header. -/
theorem no_helo_delivery_panics :
    serveConn cfgDemo clientDemo []
        [str "MAIL FROM:<a@b>\r\n", str "RCPT TO:<c@d>\r\n", str "DATA\r\n",
         str "x\r\n", str ".\r\n"] =
      { sent := [str "220 server.invalid ESMTP", str "250 2.1.0 Ok",
                 str "250 2.1.0 Ok", str "354 Go ahead"],
        delivered := [],
        state := { client := clientDemo,
                   env := some { client := clientDemo, sender := str "a@b",
                                 recipients := [str "c@d"], data := [] } },
        outcome := .panicked (str "Unknown HeloType ") } := by
  decide

end Smtpd
